import Mathlib

/-!
# Verification of the NodeJs-api-checker analyzer subsystem

A shallow embedding of the analyzer subsystem of the `NodeJs-api-checker`
repository: the Finding data model, the Security Analyzer
(`src/analyzers/security.js`), the Structure Analyzer
(`src/analyzers/structure.js`), the parse adapter (`src/utils/parser.js`)
and the CLI's finding aggregation.

External collaborators (the Babel parser, the file system) are modelled as
function parameters: `parse : String → Option JSNode` stands for the Babel
`parse` call (returning `none` on a parse error), `readFile : String → String`
for reading a file's text, and `pathExists : String → Bool` for
`fs.pathExists`.  JavaScript's `String.prototype.split("\n")` is modelled by
`splitLines`, and the three secret-detection regular expressions are modelled
character by character; each regex here is deterministic because the
repetition classes are disjoint from the character that must follow them, so
greedy matching without backtracking is exact.
-/

namespace ApiChecker

/-- The value of a Finding's `line` field: a JS number, the string `"N/A"`
used by all Structure Analyzer findings, or the string `"unknown"` returned
by `getLineNumber` when a node has no position info. -/
inductive LineVal where
  | num (n : Nat)
  | na
  | unknown
deriving DecidableEq, Repr

/-- The Finding record pushed by both analyzers.  Structure Analyzer
findings have no `snippet` key, modelled by `none`. -/
structure Finding where
  ftype : String
  severity : String
  file : String
  line : LineVal
  message : String
  description : String
  snippet : Option String
  recommendation : String
deriving DecidableEq, Repr

/-! ## String helpers shared by the checks -/

/-- Auxiliary for `splitLines`: accumulates the current line reversed. -/
def splitLinesAux : List Char → List Char → List String
  | [], acc => [String.mk acc.reverse]
  | c :: cs, acc =>
    if c = '\n' then String.mk acc.reverse :: splitLinesAux cs []
    else splitLinesAux cs (c :: acc)

/-- JavaScript `str.split("\n")`: the list of newline-separated segments
(one more segment than there are newlines; `"" ↦ [""]`). -/
def splitLines (s : String) : List String := splitLinesAux s.data []

/-- JavaScript `content.split("\n").length`, the line count used by the
Structure Analyzer. -/
def linesCount (s : String) : Nat := (splitLines s).length

/-- Does `pat` occur as an initial segment of `cs`?  Returns the remainder
on success. -/
def stripLit : List Char → List Char → Option (List Char)
  | [], cs => some cs
  | _ :: _, [] => none
  | p :: ps, c :: cs => if p = c then stripLit ps cs else none

/-- Case-insensitive variant of `stripLit` (ASCII lower-casing), used only
to state the spec's reading of the generic secret pattern. -/
def stripLitCI : List Char → List Char → Option (List Char)
  | [], cs => some cs
  | _ :: _, [] => none
  | p :: ps, c :: cs => if p.toLower = c.toLower then stripLitCI ps cs else none

/-- JavaScript `String.prototype.includes(pat)`. -/
def containsSub (pat s : String) : Bool :=
  s.data.tails.any fun cs => (stripLit pat.data cs).isSome

/-- The `\w` character class of a JS regex without the unicode flag:
`[A-Za-z0-9_]`. -/
def isWordChar (c : Char) : Bool :=
  ('a' ≤ c && c ≤ 'z') || ('A' ≤ c && c ≤ 'Z') || ('0' ≤ c && c ≤ '9') || c = '_'

/-- The `\s` class restricted to the ASCII whitespace that can occur in the
analyzed lines (space, tab, CR, LF, vertical tab, form feed). -/
def isJsSpace (c : Char) : Bool :=
  c = ' ' || c = '\t' || c = '\r' || c = '\n' || c = '\x0b' || c = '\x0c'

/-- A single or double quote, the `['"]` class. -/
def isQuote (c : Char) : Bool := c = '\'' || c = '"'

/-- Class `[a-zA-Z0-9]`. -/
def isAsciiAlnum (c : Char) : Bool :=
  ('a' ≤ c && c ≤ 'z') || ('A' ≤ c && c ≤ 'Z') || ('0' ≤ c && c ≤ '9')

/-- Class `[0-9A-Z]`, the AWS-key body class. -/
def isAwsChar (c : Char) : Bool :=
  ('0' ≤ c && c ≤ '9') || ('A' ≤ c && c ≤ 'Z')

/-- Head of `cs` is a quote. -/
def headIsQuote : List Char → Bool
  | c :: _ => isQuote c
  | [] => false

/-! ## The three secret regexes of `checkSecretsInCode` -/

/-- Match of `(sk_live_|pk_live_|api_key_)[a-zA-Z0-9]{20,}['"]` right after
an opening quote at the head of `cs`. -/
def apiKeyAt : List Char → Bool
  | q :: rest =>
    isQuote q &&
    (["sk_live_", "pk_live_", "api_key_"].any fun pre =>
      match stripLit pre.data rest with
      | some r2 =>
        let run := r2.takeWhile isAsciiAlnum
        20 ≤ run.length && headIsQuote (r2.drop run.length)
      | none => false)
  | [] => false

/-- Test `/['"](sk_live_|pk_live_|api_key_)[a-zA-Z0-9]{20,}['"]/.test(line)`. -/
def testApiKey (line : String) : Bool := line.data.tails.any apiKeyAt

/-- Match of `AKIA[0-9A-Z]{16}['"]` right after an opening quote at the
head of `cs`. -/
def awsKeyAt : List Char → Bool
  | q :: rest =>
    isQuote q &&
    (match stripLit "AKIA".data rest with
     | some r2 =>
       (r2.take 16).length = 16 && (r2.take 16).all isAwsChar &&
         headIsQuote (r2.drop 16)
     | none => false)
  | [] => false

/-- Test `/['"]AKIA[0-9A-Z]{16}['"]/.test(line)`. -/
def testAwsKey (line : String) : Bool := line.data.tails.any awsKeyAt

/-- The tail `\s*[:=]\s*['"]\w{10,}['"]` of the generic secret pattern,
matched at the head of `cs`. -/
def genericTail (cs : List Char) : Bool :=
  match cs.dropWhile isJsSpace with
  | c :: cs2 =>
    (c = ':' || c = '=') &&
    (match cs2.dropWhile isJsSpace with
     | q :: cs3 =>
       isQuote q &&
         (let run := cs3.takeWhile isWordChar
          10 ≤ run.length && headIsQuote (cs3.drop run.length))
     | [] => false)
  | [] => false

/-- The keywords of the generic secret pattern, in the source's order. -/
def secretKeywords : List String := ["password", "secret", "token", "api_key"]

/-- Match of `(password|secret|token|api_key)\s*[:=]\s*['"]\w{10,}['"]` at
the head of `cs` — the pattern exactly as written in the source, with no
`i` flag, so the keyword must appear in lower case. -/
def genericSecretAt (cs : List Char) : Bool :=
  secretKeywords.any fun kw =>
    match stripLit kw.data cs with
    | some rest => genericTail rest
    | none => false

/-- Test `/(password|secret|token|api_key)\s*[:=]\s*['"]\w{10,}['"]/.test(line)`. -/
def testGenericSecret (line : String) : Bool := line.data.tails.any genericSecretAt

/-- Spec-side reading of the generic pattern: identical except that the
keyword is matched case-insensitively, as the spec's "(case-insensitive)"
annotation asserts. -/
def specGenericSecretAt (cs : List Char) : Bool :=
  secretKeywords.any fun kw =>
    match stripLitCI kw.data cs with
    | some rest => genericTail rest
    | none => false

/-- The spec's case-insensitive generic secret test. -/
def testSpecGenericSecret (line : String) : Bool :=
  line.data.tails.any specGenericSecretAt

/-- The `secretPatterns` table of `checkSecretsInCode`, in source order. -/
def secretPatterns : List (String × (String → Bool)) :=
  [("API Key", testApiKey), ("AWS Key", testAwsKey),
   ("Generic Secret", testGenericSecret)]

/-- The Finding pushed for a matching secret pattern (`index` is 0-based,
the source stores `index + 1`). -/
def mkSecretFinding (filePath : String) (index : Nat) (line : String)
    (name : String) : Finding :=
  { ftype := "exposed-secret"
    severity := "critical"
    file := filePath
    line := LineVal.num (index + 1)
    message := "Potential " ++ name ++ " found in code"
    description := "Hardcoded secrets should never be committed to version control."
    snippet := some line.trim
    recommendation :=
      "Move secrets to environment variables (.env file) and use process.env.SECRET_NAME" }

/-- The per-line loop of `checkSecretsInCode`: for each line, each pattern
is tested and a Finding is pushed per match; `idx` is the 0-based index of
the first line of `lines`. -/
def secretFindingsFrom (filePath : String) (idx : Nat) : List String → List Finding
  | [] => []
  | line :: rest =>
    (secretPatterns.filterMap fun p =>
      if p.2 line then some (mkSecretFinding filePath idx line p.1) else none)
      ++ secretFindingsFrom filePath (idx + 1) rest

/-- Model of `SecurityAnalyzer.checkSecretsInCode` (the `ast` parameter is unused in
the source and omitted here). -/
def checkSecretsInCode (code filePath : String) : List Finding :=
  secretFindingsFrom filePath 0 (splitLines code)

/-! ## The Babel AST fragment used by `checkSQLInjection`

Only the node shapes the check inspects are distinguished; every other
node kind is `seq`, a container of children, which suffices because the
check reads nothing but `type`, `callee.object.name`, `callee.property.name`,
`arguments`, `expressions.length` and `loc.start.line`.  `loc` is the node's
1-based start line when Babel attached position info, `none` otherwise. -/
inductive JSNode where
  | ident (name : String) (loc : Option Nat)
  | strLit (value : String) (loc : Option Nat)
  | templateLit (expressions : List JSNode) (loc : Option Nat)
  | binExpr (left right : JSNode) (loc : Option Nat)
  | memberExpr (obj prop : JSNode) (loc : Option Nat)
  | callExpr (callee : JSNode) (args : List JSNode) (loc : Option Nat)
  | seq (children : List JSNode) (loc : Option Nat)

/-- The node's `loc ? loc.start.line : null`. -/
def JSNode.locOf : JSNode → Option Nat
  | .ident _ l => l
  | .strLit _ l => l
  | .templateLit _ l => l
  | .binExpr _ _ l => l
  | .memberExpr _ _ l => l
  | .callExpr _ _ l => l
  | .seq _ l => l

/-- JavaScript `node.name`: defined only on identifiers. -/
def JSNode.nameOf : JSNode → Option String
  | .ident n _ => some n
  | _ => none

/-- Model of `CodeParser.getLineNumber`: `node.loc ? node.loc.start.line : "unknown"`. -/
def getLineNumber (n : JSNode) : LineVal :=
  match n.locOf with
  | some k => LineVal.num k
  | none => LineVal.unknown

/-- Model of `CodeParser.getCodeSnippet`: `lines.slice(startLine - 1, endLine).join("\n")`. -/
def getCodeSnippet (code : String) (startLine endLine : Nat) : String :=
  String.intercalate "\n"
    (((splitLines code).drop (startLine - 1)).take (endLine - (startLine - 1)))

mutual

/-- Pre-order collection of every `CallExpression` node, the set of nodes
Babel's traversal hands to the `CallExpression` visitor (a node, then its
callee, then its arguments). -/
def collectCalls : JSNode → List JSNode
  | .ident _ _ => []
  | .strLit _ _ => []
  | .templateLit es _ => collectCallsList es
  | .binExpr l r _ => collectCalls l ++ collectCalls r
  | .memberExpr o p _ => collectCalls o ++ collectCalls p
  | .callExpr c args loc =>
    JSNode.callExpr c args loc :: (collectCalls c ++ collectCallsList args)
  | .seq cs _ => collectCallsList cs

/-- Function `collectCalls` over a child list, in order. -/
def collectCallsList : List JSNode → List JSNode
  | [] => []
  | n :: ns => collectCalls n ++ collectCallsList ns

end

/-- The candidate test of `checkSQLInjection`: the callee is a member
expression whose object is named `db` and whose property is named one of
`run`, `all`, `get`, `exec`. -/
def calleeIsDb : JSNode → Bool
  | .memberExpr o p _ =>
    (match o.nameOf with
     | some n => n = "db"
     | none => false) &&
    (match p.nameOf with
     | some m => m = "run" || m = "all" || m = "get" || m = "exec"
     | none => false)
  | _ => false

/-- The unsafe-argument test: a binary expression, or a template literal
with at least one interpolated expression. -/
def isUnsafeArg : JSNode → Bool
  | .binExpr _ _ _ => true
  | .templateLit es _ => es.length > 0
  | _ => false

/-- Snippet attached to an SQL-injection Finding.  When `getLineNumber`
returned `"unknown"`, the JS code computes `lines.slice(NaN, 0)` (string
arithmetic on `"unknown"`), which is the empty slice, hence `""`. -/
def sqlSnippet (code : String) : LineVal → String
  | LineVal.num n => getCodeSnippet code n (n + 2)
  | _ => ""

/-- The Finding pushed by `checkSQLInjection` for an unsafe candidate call. -/
def mkSqlFinding (filePath code : String) (node : JSNode) : Finding :=
  { ftype := "sql-injection"
    severity := "critical"
    file := filePath
    line := getLineNumber node
    message := "SQL Injection vulnerability detected"
    description :=
      "Query uses string concatenation or template literals with user input. Use parameterized queries instead."
    snippet := some (sqlSnippet code (getLineNumber node))
    recommendation :=
      "Use parameterized queries with ? placeholders:\ndb.run(\"SELECT * FROM users WHERE id = ?\", [userId], callback)" }

/-- The body of the `CallExpression` visitor in `checkSQLInjection`: the
findings (none or one) this call expression contributes. -/
def processCall (filePath code : String) : JSNode → List Finding
  | .callExpr callee args loc =>
    if calleeIsDb callee then
      match args with
      | [] => []
      | queryArg :: _ =>
        if isUnsafeArg queryArg then
          [mkSqlFinding filePath code (JSNode.callExpr callee args loc)]
        else []
    else []
  | _ => []

/-- Model of `SecurityAnalyzer.checkSQLInjection`: the visitor applied to every call
expression of the tree, in traversal order. -/
def checkSQLInjection (ast : JSNode) (code filePath : String) : List Finding :=
  (collectCalls ast).flatMap (processCall filePath code)

/-! ## The parse adapter and `SecurityAnalyzer.analyze` -/

/-- A successful parse result of `CodeParser.parseFile`. -/
structure ParsedFile where
  ast : JSNode
  code : String
  filePath : String

/-- Model of `CodeParser.parseFile`: read the file, run the external parser; a parse
error yields `null` (the file is skipped with a warning). -/
def parseFile (readFile : String → String) (parse : String → Option JSNode)
    (filePath : String) : Option ParsedFile :=
  match parse (readFile filePath) with
  | some ast => some ⟨ast, readFile filePath, filePath⟩
  | none => none

/-- Model of `CodeParser.parseFiles`: parse each path, keeping only the successes in
input order. -/
def parseFiles (readFile : String → String) (parse : String → Option JSNode)
    (filePaths : List String) : List ParsedFile :=
  filePaths.filterMap (parseFile readFile parse)

/-- The body of `SecurityAnalyzer.analyze` after the `findings = []` reset:
for each parsed file, the SQL-injection check then the secret check. -/
def securityRun (readFile : String → String) (parse : String → Option JSNode)
    (filePaths : List String) : List Finding :=
  (parseFiles readFile parse filePaths).flatMap fun pf =>
    checkSQLInjection pf.ast pf.code pf.filePath ++
      checkSecretsInCode pf.code pf.filePath

/-- The `SecurityAnalyzer` object: its only instance state is `findings`,
holding the last run's result. -/
structure SecurityAnalyzer where
  findings : List Finding

/-- Model of `SecurityAnalyzer.analyze`: resets `this.findings` to `[]`, runs both
checks over the parsed files, stores and returns the findings. -/
def SecurityAnalyzer.analyze (a : SecurityAnalyzer) (readFile : String → String)
    (parse : String → Option JSNode) (filePaths : List String) :
    SecurityAnalyzer × List Finding :=
  let fs := securityRun readFile parse filePaths
  (⟨fs⟩, fs)

/-! ## The Structure Analyzer (`src/analyzers/structure.js`) -/

/-- Model of `path.join(repoPath, name)` for the simple two-segment joins the
analyzer performs. -/
def joinPath (repoPath name : String) : String := repoPath ++ "/" ++ name

/-- The `recommendedFolders` table: name and description. -/
def recommendedFolders : List (String × String) :=
  [("routes", "Route definitions"), ("controllers", "Business logic"),
   ("models", "Data models"), ("middleware", "Custom middleware"),
   ("config", "Configuration files")]

/-- The `missingFolders` accumulator of `checkFolderStructure`. -/
def missingFoldersOf (pathExists : String → Bool) (repoPath : String) :
    List (String × String) :=
  recommendedFolders.filter fun f => !pathExists (joinPath repoPath f.1)

/-- The description string of the missing-folder-structure Finding. -/
def folderDescription (missing : List (String × String)) : String :=
  "Missing " ++ toString missing.length ++ " recommended folders: " ++
    String.intercalate ", " (missing.map Prod.fst)

/-- The recommendation string of the missing-folder-structure Finding. -/
def folderRecommendation : String :=
  "Consider organizing your code with folders:\n" ++
    String.intercalate "\n"
      (recommendedFolders.map fun f => "  - " ++ f.1 ++ "/ (" ++ f.2 ++ ")")

/-- The missing-folder-structure Finding. -/
def mkFolderFinding (repoPath : String) (missing : List (String × String)) :
    Finding :=
  { ftype := "missing-folder-structure"
    severity := "warning"
    file := repoPath
    line := LineVal.na
    message := "Recommended folder structure not found"
    description := folderDescription missing
    snippet := none
    recommendation := folderRecommendation }

/-- Model of `StructureAnalyzer.checkFolderStructure`: one warning Finding when at
least three recommended folders are absent. -/
def checkFolderStructure (pathExists : String → Bool) (repoPath : String) :
    List Finding :=
  if 3 ≤ (missingFoldersOf pathExists repoPath).length then
    [mkFolderFinding repoPath (missingFoldersOf pathExists repoPath)]
  else []

/-- Test `/app\.(get|post|put|delete|patch)\(/.test(content)`. -/
def testAppRoutes (content : String) : Bool :=
  ["get", "post", "put", "delete", "patch"].any fun v =>
    containsSub ("app." ++ v ++ "(") content

/-- Test `/db\.(run|all|get|exec)\(/.test(content)`. -/
def testDbCalls (content : String) : Bool :=
  ["run", "all", "get", "exec"].any fun v =>
    containsSub ("db." ++ v ++ "(") content

/-- Model of `path.basename` for the slash-separated paths the analyzer sees. -/
def baseName (filePath : String) : String :=
  (filePath.splitOn "/").getLastD filePath

/-- Model of `StructureAnalyzer.checkSeparationOfConcerns`: a warning per source file
that matches both route and database shapes and exceeds 100 lines. -/
def checkSeparationOfConcerns (readFile : String → String)
    (sourceFiles : List String) : List Finding :=
  sourceFiles.filterMap fun fp =>
    if testAppRoutes (readFile fp) && testDbCalls (readFile fp) then
      if 100 < linesCount (readFile fp) then
        some
          { ftype := "monolithic-file"
            severity := "warning"
            file := fp
            line := LineVal.na
            message := "Routes and database logic in same file"
            description :=
              baseName fp ++
                " contains both route definitions and database operations (" ++
                toString (linesCount (readFile fp)) ++
                " lines). This violates separation of concerns."
            snippet := none
            recommendation :=
              "Separate into:\n  - routes/ for route definitions\n  - controllers/ for business logic\n  - models/ for database operations" }
      else none
    else none

/-- The `essentialFiles` table: name, description, severity. -/
def essentialFiles : List (String × String × String) :=
  [(".env.example", "Environment variables template", "warning"),
   (".gitignore", "Git ignore rules", "warning"),
   ("README.md", "Project documentation", "info"),
   ("package.json", "Node.js dependencies", "critical")]

/-- Model of `StructureAnalyzer.checkEssentialFiles`: a Finding per absent essential
file, plus the env-not-ignored check when both `.env` and `.gitignore`
exist. -/
def checkEssentialFiles (pathExists : String → Bool)
    (readFile : String → String) (repoPath : String) : List Finding :=
  (essentialFiles.filterMap fun ef =>
    if pathExists (joinPath repoPath ef.1) then none
    else
      some
        { ftype := "missing-essential-file"
          severity := ef.2.2
          file := repoPath
          line := LineVal.na
          message := "Missing " ++ ef.1
          description := ef.2.1 ++ " not found in project root."
          snippet := none
          recommendation :=
            if ef.1 = ".gitignore" then
              "Create .gitignore with:\nnode_modules/\n.env\n*.log\n.DS_Store"
            else "Create " ++ ef.1 ++ " file" }) ++
  (if pathExists (joinPath repoPath ".env") &&
      pathExists (joinPath repoPath ".gitignore") then
    if containsSub ".env" (readFile (joinPath repoPath ".gitignore")) then []
    else
      [{ ftype := "env-not-ignored"
         severity := "critical"
         file := joinPath repoPath ".gitignore"
         line := LineVal.na
         message := ".env file not in .gitignore"
         description :=
           "Environment variables file exists but is not ignored by git. This can expose secrets."
         snippet := none
         recommendation := "Add .env to your .gitignore file" }]
  else [])

/-- The single-file-app Finding. -/
def mkSingleFileFinding (fp content : String) : Finding :=
  { ftype := "single-file-app"
    severity := "warning"
    file := fp
    line := LineVal.na
    message := "Entire application in single file"
    description :=
      "Application is " ++ toString (linesCount content) ++
        " lines in a single file. This makes it hard to maintain and test."
    snippet := none
    recommendation :=
      "Consider splitting into multiple files:\n  - app.js (main entry)\n  - routes/*.js (route definitions)\n  - controllers/*.js (business logic)\n  - models/*.js (data layer)" }

/-- Model of `StructureAnalyzer.checkMonolithicStructure`: a warning when the source
list is a single file of more than 150 lines. -/
def checkMonolithicStructure (readFile : String → String)
    (sourceFiles : List String) : List Finding :=
  match sourceFiles with
  | [fp] =>
    if 150 < linesCount (readFile fp) then [mkSingleFileFinding fp (readFile fp)]
    else []
  | _ => []

/-- The body of `StructureAnalyzer.analyze`: the four checks in source
order. -/
def structureRun (pathExists : String → Bool) (readFile : String → String)
    (repoPath : String) (sourceFiles : List String) : List Finding :=
  checkFolderStructure pathExists repoPath ++
    checkSeparationOfConcerns readFile sourceFiles ++
    checkEssentialFiles pathExists readFile repoPath ++
    checkMonolithicStructure readFile sourceFiles

/-- The aggregation of `runAnalyzeCommand`:
`[...securityFindings, ...structureFindings]`. -/
def aggregateFindings (securityFindings structureFindings : List Finding) :
    List Finding :=
  securityFindings ++ structureFindings

/-! ## Wellformedness of parser output

Babel attaches 1-based line numbers: whenever a node carries position
info, its start line is positive.  `nodeWF` states this for every node of
a tree; it is the contract the external Parse Adapter guarantees. -/

/-- A node's recorded line, when present, is positive. -/
def locOk : Option Nat → Bool
  | some k => decide (0 < k)
  | none => true

mutual

/-- Every `loc` in the tree is absent or a positive line number. -/
def nodeWF : JSNode → Bool
  | .ident _ l => locOk l
  | .strLit _ l => locOk l
  | .templateLit es l => locOk l && nodeListWF es
  | .binExpr a b l => locOk l && nodeWF a && nodeWF b
  | .memberExpr o p l => locOk l && nodeWF o && nodeWF p
  | .callExpr c args l => locOk l && nodeWF c && nodeListWF args
  | .seq cs l => locOk l && nodeListWF cs

/-- Predicate `nodeWF` over a child list. -/
def nodeListWF : List JSNode → Bool
  | [] => true
  | n :: ns => nodeWF n && nodeListWF ns

end

/-- The invariant of a Finding's `line` field: a positive line number, or
one of the two sentinels `"N/A"` and `"unknown"`. -/
def lineValOk : LineVal → Prop
  | LineVal.num n => 0 < n
  | LineVal.na => True
  | LineVal.unknown => True

/-! ## Concrete fixtures used by counterexamples and witnesses -/

/-- A file tree where only `routes` and `controllers` are absent. -/
def existsMost : String → Bool := fun p =>
  !(p = "/repo/routes" || p = "/repo/controllers")

/-- The callee `db.run` with position info on line 1. -/
def demoCallee : JSNode :=
  JSNode.memberExpr (JSNode.ident "db" (some 1)) (JSNode.ident "run" (some 1))
    (some 1)

/-- The first argument `"SELECT * FROM users WHERE id = " + userId`. -/
def demoArg : JSNode :=
  JSNode.binExpr (JSNode.strLit "SELECT * FROM users WHERE id = " (some 1))
    (JSNode.ident "userId" (some 1)) (some 1)

/-- The unsafe call `db.run("SELECT * FROM users WHERE id = " + userId)`. -/
def demoCall : JSNode := JSNode.callExpr demoCallee [demoArg] (some 1)

/-- A one-statement program holding `demoCall`. -/
def demoAst : JSNode := JSNode.seq [demoCall] (some 1)

/-- The source text of `demoAst`. -/
def demoCode : String := "db.run(\"SELECT * FROM users WHERE id = \" + userId)"

/-- A line the generic secret pattern matches as written (lower case). -/
def secretLine : String := "password = \"hunter2hunter2\""

/-- A parse adapter that fails on every file. -/
def parseNone : String → Option JSNode := fun _ => none

/-- A file system where every file reads as `secretLine`. -/
def readSecret : String → String := fun _ => secretLine

/-- A line the spec's case-insensitive generic pattern matches but the
source's case-sensitive regex does not. -/
def upLine : String := "PASSWORD = \"abcdefghij\""

/-- A file of `n + 1` newline-separated segments, for the line-count
boundary checks. -/
def mkLines : Nat → String
  | 0 => "x"
  | n + 1 => "x\n" ++ mkLines n

/-! ## Helper lemmas -/

/-- Every Finding the `CallExpression` visitor contributes has type
`sql-injection`, severity `critical`, and the visited node's line. -/
theorem mem_processCall_eq (filePath code : String) (n : JSNode) (f : Finding)
    (h : f ∈ processCall filePath code n) : f = mkSqlFinding filePath code n := by
  cases n with
  | callExpr c args l =>
    simp only [processCall] at h
    split at h
    · split at h
      · simp at h
      · simp at h
        exact h.2
    · simp at h
  | ident a b => simp [processCall] at h
  | strLit a b => simp [processCall] at h
  | templateLit a b => simp [processCall] at h
  | binExpr a b c => simp [processCall] at h
  | memberExpr a b c => simp [processCall] at h
  | seq a b => simp [processCall] at h

/-! ## C1 -/

/-- C1 counterexample: on the unsafe call `demoCall`, the unsafe dynamic
query check emits a Finding whose type tag is `sql-injection`, not
`unsafe-dynamic-query` — the claim's tag never occurs in the code. -/
theorem C1_counterexample :
    (checkSQLInjection demoAst demoCode "app.js").map Finding.ftype =
      ["sql-injection"] ∧
    ("sql-injection" : String) ≠ "unsafe-dynamic-query" := by
  exact ⟨rfl, by decide⟩

/-- C1 (amended): every Finding emitted by the Security Analyzer's unsafe
dynamic query check has type tag `sql-injection`. -/
theorem C1_sql_injection_type_tag (ast : JSNode) (code filePath : String)
    (f : Finding) (h : f ∈ checkSQLInjection ast code filePath) :
    f.ftype = "sql-injection" := by
  simp only [checkSQLInjection, List.mem_flatMap] at h
  obtain ⟨n, _, hf⟩ := h
  rw [mem_processCall_eq filePath code n f hf]
  rfl

/-- C1 witness: the amended statement applied to the Finding the check
emits on `demoAst`. -/
theorem C1_witness :
    (mkSqlFinding "app.js" demoCode demoCall).ftype = "sql-injection" := by
  refine C1_sql_injection_type_tag demoAst demoCode "app.js" _ ?_
  have h : checkSQLInjection demoAst demoCode "app.js" =
      [mkSqlFinding "app.js" demoCode demoCall] := rfl
  rw [h]
  exact List.mem_singleton.mpr rfl

/-! ## C8 -/

/-- C8: the aggregated sequence is the security findings followed by the
structure findings — its first `k` elements (`k` the security output's
length) are the security output, the remainder the structure output. -/
theorem C8_aggregation_order (securityFindings structureFindings : List Finding) :
    (aggregateFindings securityFindings structureFindings).take
        securityFindings.length = securityFindings ∧
    (aggregateFindings securityFindings structureFindings).drop
        securityFindings.length = structureFindings := by
  exact ⟨List.take_left securityFindings structureFindings,
    List.drop_left securityFindings structureFindings⟩

/-! ## C9 -/

/-- C9: `SecurityAnalyzer.analyze` depends only on the file set and its
contents — any two analyzer states produce the same findings, and running
a second time on the unchanged file set returns the same sequence, so no
findings retained from a previous run leak into the next. -/
theorem C9_determinism (a b : SecurityAnalyzer) (readFile : String → String)
    (parse : String → Option JSNode) (filePaths : List String) :
    (a.analyze readFile parse filePaths).2 =
      (b.analyze readFile parse filePaths).2 ∧
    (((a.analyze readFile parse filePaths).1).analyze readFile parse
        filePaths).2 = (a.analyze readFile parse filePaths).2 := by
  exact ⟨rfl, rfl⟩

/-! ## C10 -/

/-- C10: a candidate `db.run`/`all`/`get`/`exec` call with zero arguments
makes the unsafe dynamic query check emit no Finding: the missing first
argument is an explicit guard, and the (total) check completes. -/
theorem C10_zero_arg_guard (filePath code : String) (callee : JSNode)
    (loc : Option Nat) (hc : calleeIsDb callee = true) :
    processCall filePath code (JSNode.callExpr callee [] loc) = [] := by
  simp [processCall, hc]

/-- C10 witness: the zero-argument call `db.run()`. -/
theorem C10_witness :
    processCall "app.js" "db.run()" (JSNode.callExpr demoCallee [] (some 1)) =
      [] := by
  exact C10_zero_arg_guard "app.js" "db.run()" demoCallee (some 1) rfl

/-! ## C4 -/

/-- C4: for a candidate `db.run`/`all`/`get`/`exec` call, the unsafe dynamic
query check emits exactly one critical Finding at the call's source line if
and only if the first argument is a binary expression or a template literal
with at least one interpolated expression; a plain string literal first
argument emits none. -/
theorem C4_unsafe_query_iff (filePath code : String) (callee : JSNode)
    (args : List JSNode) (loc : Option Nat) (hc : calleeIsDb callee = true) :
    ((∃ f, processCall filePath code (JSNode.callExpr callee args loc) = [f] ∧
        f.severity = "critical" ∧
        f.line = getLineNumber (JSNode.callExpr callee args loc)) ↔
      (∃ qa rest, args = qa :: rest ∧ isUnsafeArg qa = true)) ∧
    (∀ v l rest, args = JSNode.strLit v l :: rest →
      processCall filePath code (JSNode.callExpr callee args loc) = []) := by
  constructor
  · cases args with
    | nil =>
      simp [processCall, hc]
    | cons qa rest =>
      by_cases hu : isUnsafeArg qa = true
      · constructor
        · intro _
          exact ⟨qa, rest, rfl, hu⟩
        · intro _
          refine ⟨mkSqlFinding filePath code
            (JSNode.callExpr callee (qa :: rest) loc), ?_, rfl, rfl⟩
          simp [processCall, hc, hu]
      · have hz : processCall filePath code
            (JSNode.callExpr callee (qa :: rest) loc) = [] := by
          simp [processCall, hc, hu]
        constructor
        · rintro ⟨f, hf, -, -⟩
          rw [hz] at hf
          simp at hf
        · rintro ⟨qa2, rest2, heq, hu2⟩
          injection heq with h1 h2
          subst h1
          exact absurd hu2 hu
  · intro v l rest heq
    subst heq
    simp [processCall, hc, isUnsafeArg]

/-- C4 witness: the unsafe call `demoCall` emits exactly one critical
Finding at its line. -/
theorem C4_witness :
    ∃ f, processCall "app.js" demoCode
        (JSNode.callExpr demoCallee [demoArg] (some 1)) = [f] ∧
      f.severity = "critical" ∧
      f.line = getLineNumber (JSNode.callExpr demoCallee [demoArg] (some 1)) := by
  exact ((C4_unsafe_query_iff "app.js" demoCode demoCallee [demoArg] (some 1)
    rfl).1).mpr ⟨demoArg, [], rfl, rfl⟩

/-! ## C5 -/

/-- C5: the folder-structure check emits exactly one warning Finding of
type missing-folder-structure, whose description lists exactly the missing
directories, when at least 3 of the five recommended directories are
absent; with 2 or fewer missing it emits nothing. -/
theorem C5_folder_structure_threshold (pathExists : String → Bool)
    (repoPath : String) :
    (3 ≤ (missingFoldersOf pathExists repoPath).length →
      checkFolderStructure pathExists repoPath =
        [mkFolderFinding repoPath (missingFoldersOf pathExists repoPath)] ∧
      (mkFolderFinding repoPath (missingFoldersOf pathExists repoPath)).ftype =
        "missing-folder-structure" ∧
      (mkFolderFinding repoPath (missingFoldersOf pathExists repoPath)).severity =
        "warning" ∧
      (mkFolderFinding repoPath (missingFoldersOf pathExists repoPath)).description =
        folderDescription (missingFoldersOf pathExists repoPath)) ∧
    ((missingFoldersOf pathExists repoPath).length < 3 →
      checkFolderStructure pathExists repoPath = []) := by
  constructor
  · intro h3
    refine ⟨?_, rfl, rfl, rfl⟩
    simp [checkFolderStructure, h3]
  · intro hlt
    simp [checkFolderStructure, Nat.not_le.mpr hlt]

/-- C5 witness: with all five folders absent the single Finding is emitted;
with only two absent nothing is emitted. -/
theorem C5_witness :
    checkFolderStructure (fun _ => false) "/repo" =
      [mkFolderFinding "/repo" (missingFoldersOf (fun _ => false) "/repo")] ∧
    checkFolderStructure existsMost "/repo" = [] := by
  exact ⟨((C5_folder_structure_threshold (fun _ => false) "/repo").1 (by decide)).1,
    (C5_folder_structure_threshold existsMost "/repo").2 (by decide)⟩

/-! ## C7 -/

/-- C7: the single-file-app check emits a warning Finding of that type if
and only if the source list is exactly one file whose line count (the
length of its newline split, as the source computes it) exceeds 150. -/
theorem C7_single_file_app_iff (readFile : String → String)
    (sourceFiles : List String) :
    (∃ f ∈ checkMonolithicStructure readFile sourceFiles,
        f.ftype = "single-file-app" ∧ f.severity = "warning") ↔
      (∃ fp, sourceFiles = [fp] ∧ 150 < linesCount (readFile fp)) := by
  cases sourceFiles with
  | nil => simp [checkMonolithicStructure]
  | cons a rest =>
    cases rest with
    | nil =>
      constructor
      · rintro ⟨f, hf, -, -⟩
        simp only [checkMonolithicStructure] at hf
        split at hf
        · exact ⟨a, rfl, by assumption⟩
        · simp at hf
      · rintro ⟨fp, heq, hcount⟩
        injection heq with h1 h2
        subst h1
        exact ⟨mkSingleFileFinding a (readFile a),
          by simp [checkMonolithicStructure, hcount], rfl, rfl⟩
    | cons b r2 =>
      constructor
      · rintro ⟨f, hf, -⟩
        simp [checkMonolithicStructure] at hf
      · rintro ⟨fp, heq, -⟩
        simp at heq

set_option maxRecDepth 8000 in
/-- C7 witness: a single 160-line file is flagged; a single 150-line file
is not. -/
theorem C7_witness :
    (∃ f ∈ checkMonolithicStructure (fun _ => mkLines 159) ["app.js"],
        f.ftype = "single-file-app" ∧ f.severity = "warning") ∧
    ¬(∃ f ∈ checkMonolithicStructure (fun _ => mkLines 149) ["app.js"],
        f.ftype = "single-file-app" ∧ f.severity = "warning") := by
  constructor
  · exact (C7_single_file_app_iff (fun _ => mkLines 159) ["app.js"]).mpr
      ⟨"app.js", rfl, by decide⟩
  · intro hex
    obtain ⟨fp, heq, hc⟩ :=
      (C7_single_file_app_iff (fun _ => mkLines 149) ["app.js"]).mp hex
    have h1 : fp = "app.js" := by
      injection heq with h1 h2
      exact h1.symm
    subst h1
    exact absurd hc (by decide)

/-! ## C2 -/

/-- C2 counterexample: a file whose raw text contains a secret line but
which fails to parse contributes nothing to `analyze` — the exposed-secret
scan runs only over successfully parsed files, yet the same text fed to
`checkSecretsInCode` directly does produce an exposed-secret Finding. -/
theorem C2_counterexample :
    securityRun readSecret parseNone ["app.js"] = [] ∧
    checkSecretsInCode (readSecret "app.js") "app.js" =
      [mkSecretFinding "app.js" 0 secretLine "Generic Secret"] ∧
    (mkSecretFinding "app.js" 0 secretLine "Generic Secret").ftype =
      "exposed-secret" := by
  exact ⟨rfl, rfl, rfl⟩

/-- C2 (amended): a file that fails to parse is excluded from every check
of `SecurityAnalyzer.analyze`, the line-based exposed-secret scan
included — dropping such a path from the file list leaves the output
unchanged. -/
theorem C2_parse_failure_excludes_all (readFile : String → String)
    (parse : String → Option JSNode) (p : String)
    (hp : parseFile readFile parse p = none) (pre post : List String) :
    securityRun readFile parse (pre ++ p :: post) =
      securityRun readFile parse (pre ++ post) := by
  unfold securityRun parseFiles
  rw [List.filterMap_append, List.filterMap_append,
    List.filterMap_cons_none hp]

/-- C2 witness: the amended statement applied to the unparseable secret
file. -/
theorem C2_witness :
    securityRun readSecret parseNone (["app.js"] : List String) =
      securityRun readSecret parseNone ([] : List String) := by
  exact C2_parse_failure_excludes_all readSecret parseNone "app.js" rfl [] []

/-! ## C3 -/

/-- C3 counterexample: `PASSWORD = "abcdefghij"` matches the spec's
case-insensitive reading of the generic pattern, yet the source's regex
(written without the `i` flag) emits no Finding for a file consisting of
that line. -/
theorem C3_counterexample :
    testSpecGenericSecret upLine = true ∧
    checkSecretsInCode upLine "config.js" = [] := by
  exact ⟨by decide, by decide⟩

/-- Any line of the split that the generic pattern matches yields an
exposed-secret Finding at its 1-based index offset by the start index. -/
theorem secretFindingsFrom_generic_mem (fp : String) (lines : List String)
    (idx i : Nat) (h : i < lines.length)
    (hm : testGenericSecret (lines.get ⟨i, h⟩) = true) :
    ∃ f ∈ secretFindingsFrom fp idx lines,
      f.ftype = "exposed-secret" ∧ f.line = LineVal.num (idx + i + 1) := by
  induction lines generalizing idx i with
  | nil => exact absurd h (by simp)
  | cons a rest ih =>
    cases i with
    | zero =>
      refine ⟨mkSecretFinding fp idx a "Generic Secret", ?_, rfl, rfl⟩
      apply List.mem_append_left
      apply List.mem_filterMap.mpr
      refine ⟨("Generic Secret", testGenericSecret), ?_, ?_⟩
      · simp [secretPatterns]
      · have ha : testGenericSecret a = true := hm
        simp [ha]
    | succ j =>
      have h2 : j < rest.length := by
        simpa using Nat.lt_of_succ_lt_succ (by simpa using h)
      have hm2 : testGenericSecret (rest.get ⟨j, h2⟩) = true := by
        simpa using hm
      obtain ⟨f, hf, hty, hline⟩ := ih (idx + 1) j h2 hm2
      refine ⟨f, List.mem_append_right _ hf, hty, ?_⟩
      rw [hline]
      congr 1
      omega

/-- C3 (amended): the generic exposed-secret pattern matches its
`password|secret|token|api_key` identifier case-sensitively, in lower case
as written: for every line of a file on which the pattern as written
matches, an exposed-secret Finding at that 1-based line is emitted. -/
theorem C3_generic_secret_case_sensitive (code filePath : String) (i : Nat)
    (h : i < (splitLines code).length)
    (hm : testGenericSecret ((splitLines code).get ⟨i, h⟩) = true) :
    ∃ f ∈ checkSecretsInCode code filePath,
      f.ftype = "exposed-secret" ∧ f.line = LineVal.num (i + 1) := by
  have hmem := secretFindingsFrom_generic_mem filePath (splitLines code) 0 i h hm
  simpa [checkSecretsInCode] using hmem

/-- C3 witness: the amended statement applied to a lower-case secret
assignment on line 1. -/
theorem C3_witness :
    ∃ f ∈ checkSecretsInCode secretLine "app.js",
      f.ftype = "exposed-secret" ∧ f.line = LineVal.num 1 := by
  exact C3_generic_secret_case_sensitive secretLine "app.js" 0 (by decide)
    (by decide)

/-! ## C6 -/

mutual

/-- Every call expression collected from a wellformed tree is itself
wellformed. -/
theorem collectCalls_wf (n : JSNode) (h : nodeWF n = true) :
    ∀ c ∈ collectCalls n, nodeWF c = true := by
  cases n with
  | ident a b => simp [collectCalls]
  | strLit a b => simp [collectCalls]
  | templateLit es l =>
    intro c hc
    simp only [nodeWF, Bool.and_eq_true] at h
    exact collectCallsList_wf es h.2 c hc
  | binExpr a b l =>
    intro c hc
    simp only [nodeWF, Bool.and_eq_true] at h
    simp only [collectCalls, List.mem_append] at hc
    rcases hc with hc | hc
    · exact collectCalls_wf a h.1.2 c hc
    · exact collectCalls_wf b h.2 c hc
  | memberExpr o p l =>
    intro c hc
    simp only [nodeWF, Bool.and_eq_true] at h
    simp only [collectCalls, List.mem_append] at hc
    rcases hc with hc | hc
    · exact collectCalls_wf o h.1.2 c hc
    · exact collectCalls_wf p h.2 c hc
  | callExpr cal args l =>
    intro c hc
    simp only [collectCalls, List.mem_cons, List.mem_append] at hc
    rcases hc with hc | hc | hc
    · rw [hc]
      exact h
    · have h2 : nodeWF cal = true := by
        simp only [nodeWF, Bool.and_eq_true] at h
        exact h.1.2
      exact collectCalls_wf cal h2 c hc
    · have h2 : nodeListWF args = true := by
        simp only [nodeWF, Bool.and_eq_true] at h
        exact h.2
      exact collectCallsList_wf args h2 c hc
  | seq cs l =>
    intro c hc
    simp only [nodeWF, Bool.and_eq_true] at h
    exact collectCallsList_wf cs h.2 c hc

/-- List version of `collectCalls_wf`. -/
theorem collectCallsList_wf (ns : List JSNode) (h : nodeListWF ns = true) :
    ∀ c ∈ collectCallsList ns, nodeWF c = true := by
  cases ns with
  | nil => simp [collectCallsList]
  | cons n rest =>
    intro c hc
    simp only [nodeListWF, Bool.and_eq_true] at h
    simp only [collectCallsList, List.mem_append] at hc
    rcases hc with hc | hc
    · exact collectCalls_wf n h.1 c hc
    · exact collectCallsList_wf rest h.2 c hc

end

/-- A wellformed node's recorded line is absent or positive. -/
theorem locOk_of_nodeWF (n : JSNode) (h : nodeWF n = true) :
    locOk n.locOf = true := by
  cases n with
  | ident a b => exact h
  | strLit a b => exact h
  | templateLit es l =>
    simp only [nodeWF, Bool.and_eq_true] at h
    exact h.1
  | binExpr a b l =>
    simp only [nodeWF, Bool.and_eq_true] at h
    exact h.1.1
  | memberExpr o p l =>
    simp only [nodeWF, Bool.and_eq_true] at h
    exact h.1.1
  | callExpr c args l =>
    simp only [nodeWF, Bool.and_eq_true] at h
    exact h.1.1
  | seq cs l =>
    simp only [nodeWF, Bool.and_eq_true] at h
    exact h.1

/-- Value of `getLineNumber` at a node with an acceptable `loc` is a positive line
or the `unknown` sentinel. -/
theorem lineValOk_getLineNumber (n : JSNode) (h : locOk n.locOf = true) :
    lineValOk (getLineNumber n) := by
  unfold getLineNumber
  cases hl : n.locOf with
  | some k =>
    rw [hl] at h
    simp only [locOk, decide_eq_true_eq] at h
    exact h
  | none => trivial

/-- Every Finding of the secret scan has a positive 1-based line. -/
theorem lineValOk_secretFindingsFrom (fp : String) (idx : Nat)
    (lines : List String) :
    ∀ f ∈ secretFindingsFrom fp idx lines, lineValOk f.line := by
  induction lines generalizing idx with
  | nil => simp [secretFindingsFrom]
  | cons a rest ih =>
    intro f hf
    simp only [secretFindingsFrom, List.mem_append] at hf
    rcases hf with hf | hf
    · obtain ⟨p, hp, hsome⟩ := List.mem_filterMap.mp hf
      split at hsome
      · have hfe := Option.some.inj hsome
        rw [← hfe]
        exact Nat.succ_pos idx
      · cases hsome
    · exact ih (idx + 1) f hf

/-- Every Finding of the SQL-injection check on a wellformed tree has a
positive line or the `unknown` sentinel. -/
theorem lineValOk_checkSQLInjection (ast : JSNode) (code fp : String)
    (hast : nodeWF ast = true) (f : Finding)
    (hf : f ∈ checkSQLInjection ast code fp) : lineValOk f.line := by
  simp only [checkSQLInjection, List.mem_flatMap] at hf
  obtain ⟨n, hn, hmem⟩ := hf
  have hwfn : nodeWF n = true := collectCalls_wf ast hast n hn
  rw [mem_processCall_eq fp code n f hmem]
  exact lineValOk_getLineNumber n (locOk_of_nodeWF n hwfn)

/-- Every Finding of the security run has an acceptable line, provided the
parser only produces wellformed trees. -/
theorem lineValOk_securityRun (readFile : String → String)
    (parse : String → Option JSNode) (filePaths : List String)
    (hwf : ∀ c a, parse c = some a → nodeWF a = true) :
    ∀ f ∈ securityRun readFile parse filePaths, lineValOk f.line := by
  intro f hf
  simp only [securityRun, List.mem_flatMap] at hf
  obtain ⟨pf, hpf, hf⟩ := hf
  have hast : nodeWF pf.ast = true := by
    obtain ⟨p, hp, hsome⟩ := List.mem_filterMap.mp hpf
    unfold parseFile at hsome
    split at hsome
    · rename_i ast hparse
      have h2 := Option.some.inj hsome
      rw [← h2]
      exact hwf (readFile p) ast hparse
    · cases hsome
  rw [List.mem_append] at hf
  rcases hf with hf | hf
  · exact lineValOk_checkSQLInjection pf.ast pf.code pf.filePath hast f hf
  · exact lineValOk_secretFindingsFrom pf.filePath 0 (splitLines pf.code) f hf

/-- Every Finding of the structure run has the `N/A` sentinel line. -/
theorem lineValOk_structureRun (pathExists : String → Bool)
    (readFile : String → String) (repoPath : String)
    (sourceFiles : List String) :
    ∀ f ∈ structureRun pathExists readFile repoPath sourceFiles,
      lineValOk f.line := by
  intro f hf
  simp only [structureRun, List.mem_append] at hf
  rcases hf with ((hf | hf) | hf) | hf
  · simp only [checkFolderStructure] at hf
    split at hf
    · rw [List.mem_singleton] at hf
      rw [hf]
      trivial
    · cases hf
  · obtain ⟨fp, hp, hsome⟩ := List.mem_filterMap.mp hf
    split at hsome
    · split at hsome
      · have h2 := Option.some.inj hsome
        rw [← h2]
        trivial
      · cases hsome
    · cases hsome
  · simp only [checkEssentialFiles, List.mem_append] at hf
    rcases hf with hf | hf
    · obtain ⟨ef, hp, hsome⟩ := List.mem_filterMap.mp hf
      split at hsome
      · cases hsome
      · have h2 := Option.some.inj hsome
        rw [← h2]
        trivial
    · split at hf
      · split at hf
        · cases hf
        · rw [List.mem_singleton] at hf
          rw [hf]
          trivial
      · cases hf
  · simp only [checkMonolithicStructure] at hf
    split at hf
    · split at hf
      · rw [List.mem_singleton] at hf
        rw [hf]
        trivial
      · cases hf
    · cases hf

/-- C6: every Finding of either analyzer carries either a positive integer
line or one of the explicit sentinels (`N/A`, or `unknown` from the
parser's line-number fallback), given that the parser only attaches
positive 1-based line numbers. -/
theorem C6_line_field_ok (readFile : String → String)
    (parse : String → Option JSNode) (pathExists : String → Bool)
    (repoPath : String) (sourceFiles : List String)
    (hwf : ∀ c a, parse c = some a → nodeWF a = true) (f : Finding)
    (hf : f ∈ aggregateFindings (securityRun readFile parse sourceFiles)
        (structureRun pathExists readFile repoPath sourceFiles)) :
    (∃ n, f.line = LineVal.num n ∧ 0 < n) ∨ f.line = LineVal.na ∨
      f.line = LineVal.unknown := by
  have hline : lineValOk f.line := by
    simp only [aggregateFindings, List.mem_append] at hf
    rcases hf with hf | hf
    · exact lineValOk_securityRun readFile parse sourceFiles hwf f hf
    · exact lineValOk_structureRun pathExists readFile repoPath sourceFiles f hf
  cases hl : f.line with
  | num n =>
    rw [hl] at hline
    exact Or.inl ⟨n, rfl, hline⟩
  | na => exact Or.inr (Or.inl rfl)
  | unknown => exact Or.inr (Or.inr rfl)

/-- C6 witness: the invariant at the Finding emitted for `demoAst` in a
run over a one-file repository. -/
theorem C6_witness :
    (∃ n, (mkSqlFinding "app.js" demoCode demoCall).line = LineVal.num n ∧
      0 < n) ∨
    (mkSqlFinding "app.js" demoCode demoCall).line = LineVal.na ∨
    (mkSqlFinding "app.js" demoCode demoCall).line = LineVal.unknown := by
  refine C6_line_field_ok (fun _ => demoCode) (fun _ => some demoAst)
    (fun _ => false) "/repo" ["app.js"] ?_ _ ?_
  · intro c a h
    have h2 := Option.some.inj h
    rw [← h2]
    rfl
  · have hsec : securityRun (fun _ => demoCode) (fun _ => some demoAst)
        ["app.js"] = [mkSqlFinding "app.js" demoCode demoCall] := rfl
    simp only [aggregateFindings]
    exact List.mem_append_left _
      (by rw [hsec]; exact List.mem_singleton.mpr rfl)

end ApiChecker
